import Mathlib

/-!
# fotbroms: content-addressed upload store and session binding

A shallow embedding of `main.go` (package `main` of `tongue/fotbroms`):

* `persistDataAsFile` (lines 129-148), with the standard-library functions it
  calls (`crypto/sha256`, `path/filepath.Ext`, `fmt.Sprintf`) modelled after
  their documented behaviour, and the operating system taken as a parameter;
* the HTTP handlers `Handler.Start`, `Handler.PutVideo`, `Handler.App`,
  `Handler.VideoPartial` and `renderTemplate`, with the response writer as
  explicit state and the session store and template set as parameters.

Go strings and byte slices are sequences of bytes; both are lists of natural
numbers here, every arithmetic use of a byte being reduced modulo 256.
Logging (`log.Println`) writes to the process log only and is not modelled.
-/

/-- A Go byte slice. -/
abbrev Bytes := List Nat

/-- A Go string: an immutable byte sequence. -/
abbrev GoString := List Nat

/-- The bytes of an ASCII literal of the source. -/
def ascii (s : String) : GoString := s.data.map Char.toNat

/-- A Go value of interface type error; only its message is observable. -/
structure GoError where
  Error : GoString
deriving DecidableEq, Repr

/-! ## crypto/sha256 (FIPS 180-4), as used through New, Write and Sum -/

namespace sha256

/-- Truncation to an unsigned 32-bit word. -/
def u32 (x : Nat) : Nat := x % 4294967296

/-- The round constants of SHA-256. -/
def K : List Nat :=
  [0x428a2f98, 0x71374491, 0xb5c0fbcf, 0xe9b5dba5, 0x3956c25b, 0x59f111f1, 0x923f82a4, 0xab1c5ed5,
   0xd807aa98, 0x12835b01, 0x243185be, 0x550c7dc3, 0x72be5d74, 0x80deb1fe, 0x9bdc06a7, 0xc19bf174,
   0xe49b69c1, 0xefbe4786, 0x0fc19dc6, 0x240ca1cc, 0x2de92c6f, 0x4a7484aa, 0x5cb0a9dc, 0x76f988da,
   0x983e5152, 0xa831c66d, 0xb00327c8, 0xbf597fc7, 0xc6e00bf3, 0xd5a79147, 0x06ca6351, 0x14292967,
   0x27b70a85, 0x2e1b2138, 0x4d2c6dfc, 0x53380d13, 0x650a7354, 0x766a0abb, 0x81c2c92e, 0x92722c85,
   0xa2bfe8a1, 0xa81a664b, 0xc24b8b70, 0xc76c51a3, 0xd192e819, 0xd6990624, 0xf40e3585, 0x106aa070,
   0x19a4c116, 0x1e376c08, 0x2748774c, 0x34b0bcb5, 0x391c0cb3, 0x4ed8aa4a, 0x5b9cca4f, 0x682e6ff3,
   0x748f82ee, 0x78a5636f, 0x84c87814, 0x8cc70208, 0x90befffa, 0xa4506ceb, 0xbef9a3f7, 0xc67178f2]

/-- Rotation of a 32-bit word to the right by n bits. -/
def rotr (x n : Nat) : Nat := u32 ((x >>> n) ||| (x <<< (32 - n)))

/-- The big-endian 32-bit word at offset i of a block. -/
def wordAt (p : Bytes) (i : Nat) : Nat :=
  u32 ((p.getD i 0 % 256) <<< 24 ||| (p.getD (i + 1) 0 % 256) <<< 16
    ||| (p.getD (i + 2) 0 % 256) <<< 8 ||| (p.getD (i + 3) 0 % 256))

/-- The message schedule w[0..63] of one 64-byte block. -/
def schedule (p : Bytes) : List Nat :=
  let w0 := (List.range 16).map (fun i => wordAt p (4 * i))
  (List.range 48).foldl (fun w j =>
    let i := j + 16
    let v1 := w.getD (i - 2) 0
    let t1 := rotr v1 17 ^^^ rotr v1 19 ^^^ (v1 >>> 10)
    let v2 := w.getD (i - 15) 0
    let t2 := rotr v2 7 ^^^ rotr v2 18 ^^^ (v2 >>> 3)
    w ++ [u32 (t1 + w.getD (i - 7) 0 + t2 + w.getD (i - 16) 0)]) w0

/-- The eight working variables, also the chaining value h0..h7. -/
structure Regs where
  a : Nat
  b : Nat
  c : Nat
  d : Nat
  e : Nat
  f : Nat
  g : Nat
  h : Nat
deriving DecidableEq, Repr

/-- The initial hash value. -/
def init : Regs :=
  ⟨0x6A09E667, 0xBB67AE85, 0x3C6EF372, 0xA54FF53A,
   0x510E527F, 0x9B05688C, 0x1F83D9AB, 0x5BE0CD19⟩

/-- One of the 64 rounds, on the pair (K[i], w[i]). -/
def round (r : Regs) (kw : Nat × Nat) : Regs :=
  let t1 := r.h + (rotr r.e 6 ^^^ rotr r.e 11 ^^^ rotr r.e 25)
    + ((r.e &&& r.f) ^^^ ((r.e ^^^ 0xFFFFFFFF) &&& r.g)) + kw.1 + kw.2
  let t2 := (rotr r.a 2 ^^^ rotr r.a 13 ^^^ rotr r.a 22)
    + ((r.a &&& r.b) ^^^ (r.a &&& r.c) ^^^ (r.b &&& r.c))
  { a := u32 (t1 + t2), b := r.a, c := r.b, d := r.c,
    e := u32 (r.d + t1), f := r.e, g := r.f, h := r.g }

/-- The compression of one 64-byte block into the chaining value. -/
def blockStep (h : Regs) (p : Bytes) : Regs :=
  let r := (K.zip (schedule p)).foldl round h
  { a := u32 (h.a + r.a), b := u32 (h.b + r.b), c := u32 (h.c + r.c), d := u32 (h.d + r.d),
    e := u32 (h.e + r.e), f := u32 (h.f + r.f), g := u32 (h.g + r.g), h := u32 (h.h + r.h) }

/-- The compression of the first n blocks of p. -/
def block (h : Regs) (p : Bytes) : Nat → Regs
  | 0 => h
  | n + 1 => block (blockStep h (p.take 64)) (p.drop 64) n

/-- The padding appended to a message of len bytes: a 1 bit, zeros up to 56
bytes modulo 64, and the length in bits as a big-endian 64-bit integer. -/
def padding (len : Nat) : Bytes :=
  let t := if len % 64 < 56 then 56 - len % 64 else 64 + 56 - len % 64
  let bits := (len <<< 3) % 18446744073709551616
  0x80 :: List.replicate (t - 1) 0 ++
    (List.range 8).map (fun i => (bits >>> (8 * (7 - i))) % 256)

/-- The four bytes of a 32-bit word, most significant first. -/
def putUint32 (s : Nat) : Bytes :=
  [(s >>> 24) % 256, (s >>> 16) % 256, (s >>> 8) % 256, s % 256]

/-- The 32-byte SHA-256 checksum of data. -/
def Sum256 (data : Bytes) : Bytes :=
  let p := data ++ padding data.length
  let r := block init p (p.length / 64)
  putUint32 r.a ++ putUint32 r.b ++ putUint32 r.c ++ putUint32 r.d ++
  putUint32 r.e ++ putUint32 r.f ++ putUint32 r.g ++ putUint32 r.h

/-- The state of a running hash: the bytes written so far. -/
structure digest where
  written : Bytes
deriving DecidableEq, Repr

/-- A new hash computing the SHA-256 checksum. -/
def New : digest := ⟨[]⟩

/-- Adds more data to the running hash; it never returns an error. -/
def digest.Write (d : digest) (p : Bytes) : digest := ⟨d.written ++ p⟩

/-- Appends the current hash to b and returns the resulting slice. -/
def digest.Sum (d : digest) (b : Bytes) : Bytes := b ++ Sum256 d.written

end sha256

/-! ## path/filepath.Ext, for a target whose path separator is the slash -/

namespace filepath

/-- Whether c is a directory separator character (Unix: the slash). -/
def IsPathSeparator (c : Nat) : Bool := c == 47

/-- The loop of Ext: the index runs down from i - 1, stops at a separator,
and returns the suffix that starts at the first dot it meets. -/
def extLoop (path : GoString) : Nat → GoString
  | 0 => []
  | i + 1 =>
    if IsPathSeparator (path.getD i 0) then []
    else if path.getD i 0 = 46 then path.drop i
    else extLoop path i

/-- The file name extension used by path: the suffix beginning at the final
dot in the final slash-separated element of path, empty if there is no dot. -/
def Ext (path : GoString) : GoString := extLoop path path.length

end filepath

/-! ## fmt.Sprintf, for the verbs the program uses -/

namespace fmt

/-- An operand of Sprintf: a byte slice or a string. -/
inductive Arg where
  | bytes (b : Bytes)
  | str (s : GoString)
deriving DecidableEq, Repr

/-- The operand as a byte sequence. -/
def Arg.data : Arg → Bytes
  | .bytes b => b
  | .str s => s

/-- The lower-case digit table of package fmt. -/
def ldigits : GoString := ascii "0123456789abcdefx"

/-- The verb x on a byte sequence: two lower-case hexadecimal digits a byte. -/
def fmtSbx : Bytes → GoString
  | [] => []
  | c :: rest =>
    ldigits.getD ((c % 256) >>> 4) 0 :: ldigits.getD ((c % 256) &&& 0xF) 0 :: fmtSbx rest

/-- The output for one operand under one verb. The verbs s and x are exact;
any other verb is outside the modelled fragment and is rendered as the
bad-verb marker without the operand. -/
def printArg (verb : Nat) (a : Arg) : GoString :=
  if verb = 115 then a.data
  else if verb = 120 then fmtSbx a.data
  else ascii "%!" ++ [verb] ++ ascii "(BADVERB)"

/-- The marker for operands left over at the end of the format (the operands
themselves are not rendered in the marker). -/
def extraArgs : List Arg → GoString
  | [] => []
  | _ :: _ => ascii "%!(EXTRA)"

/-- The formatting loop: literal bytes are copied, a percent sign starts a
verb, a doubled percent sign prints one, and every other verb consumes one
operand. Flags, width and precision are outside the modelled fragment. -/
def doPrintf : GoString → List Arg → GoString
  | [], args => extraArgs args
  | c :: rest, args =>
    if c ≠ 37 then c :: doPrintf rest args
    else
      match rest with
      | [] => ascii "%!(NOVERB)" ++ extraArgs args
      | verb :: rest2 =>
        if verb = 37 then 37 :: doPrintf rest2 args
        else
          match args with
          | [] => ascii "%!" ++ [verb] ++ ascii "(MISSING)" ++ doPrintf rest2 []
          | a :: more => printArg verb a ++ doPrintf rest2 more

/-- Formats according to a format specifier and returns the resulting string. -/
def Sprintf (format : GoString) (args : List Arg) : GoString := doPrintf format args

end fmt

/-! ## The operating system, as a parameter -/

/-- The two file-system calls of the program over a file-system state. Each
returns the error (none on success) and the state it leaves behind. -/
structure OS (σ : Type) where
  MkdirAll : GoString → Nat → σ → Option GoError × σ
  WriteFile : GoString → Bytes → Nat → σ → Option GoError × σ

/-- The permission bits os.ModePerm, octal 777. -/
def ModePerm : Nat := 0o777

/-! ## persistDataAsFile (main.go, lines 129-148) -/

/-- The directory of the store, the local dir of persistDataAsFile. -/
def uploadsDir : GoString := ascii "./uploads"

/-- The value of the local path of persistDataAsFile (line 141). -/
def persistPath (data : Bytes) (fileName : GoString) : GoString :=
  let hash := sha256.New.Write data
  let ext := filepath.Ext fileName
  let dir := uploadsDir
  fmt.Sprintf (dir ++ ascii "/%x%s") [.bytes (hash.Sum []), .str ext]

/-- The function persistDataAsFile: the returned string and error, and the
file-system state after the call. -/
def persistDataAsFile {σ : Type} (os : OS σ) (data : Bytes) (fileName : GoString) (fs : σ) :
    (GoString × Option GoError) × σ :=
  let dir := uploadsDir
  match os.MkdirAll dir ModePerm fs with
  | (some err, fs1) => (([], some err), fs1)
  | (none, fs1) =>
    let path := persistPath data fileName
    match os.WriteFile path data 0o666 fs1 with
    | (some err, fs2) => (([], some err), fs2)
    | (none, fs2) => ((path, none), fs2)

/-! ## net/http: response writer, request -/

/-- The observable state of an http.ResponseWriter: the status line (none
until the header is written), the body written so far, and the cookies that
were set before the header was written, as (name, value) pairs. Other headers
are not tracked. -/
structure ResponseWriter (κ : Type) where
  status : Option Nat
  body : Bytes
  cookies : List (String × κ)
deriving DecidableEq, Repr

namespace ResponseWriter

/-- The writer a handler receives: nothing written yet. -/
def fresh {κ : Type} : ResponseWriter κ := ⟨none, [], []⟩

/-- Sends the header with the status code; a second call changes nothing. -/
def WriteHeader {κ : Type} (w : ResponseWriter κ) (code : Nat) : ResponseWriter κ :=
  match w.status with
  | some _ => w
  | none => { w with status := some code }

/-- Writes body bytes; the header goes out with status 200 if not yet written. -/
def Write {κ : Type} (w : ResponseWriter κ) (b : Bytes) : ResponseWriter κ :=
  let w1 := w.WriteHeader 200
  { w1 with body := w1.body ++ b }

end ResponseWriter

namespace http

/-- The status code 500. -/
def StatusInternalServerError : Nat := 500

/-- The function http.Error: replies with the code and the message followed
by a newline, as plain text. -/
def Error {κ : Type} (w : ResponseWriter κ) (error : GoString) (code : Nat) : ResponseWriter κ :=
  (w.WriteHeader code).Write (error ++ [10])

/-- The function http.SetCookie: adds a Set-Cookie header; once the header is
written the header map no longer reaches the client. -/
def SetCookie {κ : Type} (w : ResponseWriter κ) (name : String) (c : κ) : ResponseWriter κ :=
  match w.status with
  | some _ => w
  | none => { w with cookies := w.cookies ++ [(name, c)] }

end http

/-- A multipart.FileHeader: the file name the client supplied. -/
structure FileHeader where
  Filename : GoString
deriving DecidableEq, Repr

/-- An open multipart.File: what io.ReadAll returns on it, the bytes read and
the error that stopped the reading, if any. -/
structure File where
  ReadAll : Bytes × Option GoError
deriving DecidableEq, Repr

/-- The parts of an http.Request the handlers read. Header is r.Header.Get;
Body is what io.ReadAll(r.Body) returns; Cookie is the value of the named
cookie, if the request carries one; FormFile is r.FormFile. -/
structure Request (κ : Type) where
  Header : String → GoString
  Body : Bytes × Option GoError
  Cookie : String → Option κ
  FormFile : String → Except GoError (File × FileHeader)

/-! ## gorilla/sessions: session values and the cookie store -/

/-- A dynamically typed session value: a string, or a value of another type. -/
inductive Value where
  | string (s : GoString)
  | other (tag : Nat)
deriving DecidableEq, Repr

/-- The map session.Values, as an association list with one entry a key. -/
abbrev Values := List (String × Value)

/-- The map index expression m[k]: none for an absent key (the nil interface). -/
def Values.get : Values → String → Option Value
  | [], _ => none
  | (k1, v) :: m, k => if k1 = k then some v else Values.get m k

/-- The map assignment m[k] = v. -/
def Values.set : Values → String → Value → Values
  | [], k, v => [(k, v)]
  | (k1, v1) :: m, k, v => if k1 = k then (k, v) :: m else (k1, v1) :: Values.set m k v

/-- The type assertion x.(string) in its single-value form: none stands for
the run-time panic on a nil interface or a value of another type. -/
def assertString : Option Value → Option GoString
  | some (.string s) => some s
  | _ => none

/-- The codec of a cookie store over cookie values of type κ: decoding and
encoding of the values of a named session, each of which may fail. -/
structure CookieStore (κ : Type) where
  decode : String → κ → Except GoError Values
  encode : String → Values → Except GoError κ

/-- The call store.Get(r, name): a request without the cookie gets a new
session with no values; otherwise the cookie is decoded. On an error the
handlers use nothing of the session, so only the error is kept. -/
def CookieStore.Get {κ : Type} (store : CookieStore κ) (r : Request κ) (name : String) :
    Except GoError Values :=
  match r.Cookie name with
  | none => .ok []
  | some c => store.decode name c

/-- The call session.Save(r, w) of a session of the given name: the values
are encoded and set as a cookie on the response, or the error is returned and
the response is left alone. -/
def CookieStore.Save {κ : Type} (store : CookieStore κ) (name : String) (session : Values)
    (w : ResponseWriter κ) : Option GoError × ResponseWriter κ :=
  match store.encode name session with
  | .error err => (some err, w)
  | .ok c => (none, http.SetCookie w name c)

/-! ## The program: types, templates, handlers -/

/-- The struct App (lines 32-35). -/
structure App where
  VideoName : GoString
  VideoPath : GoString
deriving DecidableEq, Repr

/-- The parsed template set: executing the named template on the data gives
the bytes written to the response and the error that stopped it, if any. -/
structure Templates where
  ExecuteTemplate : String → App → Bytes × Option GoError

/-- What a handler runs against: the operating system, the session store
(the global store) and the template set (the global templates). -/
structure Env (σ κ : Type) where
  os : OS σ
  store : CookieStore κ
  templates : Templates

/-- How a handler call ends: it returns, or it panics; either way with the
response writer and the file system as the call left them. -/
inductive Outcome (σ κ : Type) where
  | returned (w : ResponseWriter κ) (fs : σ)
  | panicked (w : ResponseWriter κ) (fs : σ)

/-- The function renderTemplate (lines 150-155). -/
def renderTemplate {κ : Type} (templates : Templates) (w : ResponseWriter κ) (tmpl : String)
    (data : App) : ResponseWriter κ :=
  match templates.ExecuteTemplate tmpl data with
  | (out, none) => if out = [] then w else w.Write out
  | (out, some err) =>
    http.Error (if out = [] then w else w.Write out) err.Error http.StatusInternalServerError

/-- The two assignments that bind a video to the session (lines 67-68 and
99-100). -/
def bindVideo (session : Values) (path fn : GoString) : Values :=
  (session.set "videoPath" (.string path)).set "videoName" (.string fn)

/-- The handler Start (lines 39-42). -/
def Handler.Start {σ κ : Type} (env : Env σ κ) (w : ResponseWriter κ) (_r : Request κ) (fs : σ) :
    Outcome σ κ :=
  let p : App := ⟨[], []⟩
  .returned (renderTemplate env.templates w "index" p) fs

/-- The steps shared by PutVideo (lines 60-75) and App (lines 92-107) once the
file is stored: get the session, bind, save. The result is the error
response, or the writer after the save. -/
def bindSession {κ : Type} (store : CookieStore κ) (w : ResponseWriter κ) (r : Request κ)
    (path fn : GoString) : Except (ResponseWriter κ) (ResponseWriter κ) :=
  match store.Get r "app" with
  | .error err => .error (http.Error w err.Error http.StatusInternalServerError)
  | .ok session =>
    match store.Save "app" (bindVideo session path fn) w with
    | (some err, w1) => .error (http.Error w1 err.Error http.StatusInternalServerError)
    | (none, w1) => .ok w1

/-- The handler PutVideo (lines 44-78). -/
def Handler.PutVideo {σ κ : Type} (env : Env σ κ) (w : ResponseWriter κ) (r : Request κ)
    (fs : σ) : Outcome σ κ :=
  let fn := r.Header "File-Name"
  match r.Body with
  | (_, some err) => .returned (http.Error w err.Error http.StatusInternalServerError) fs
  | (b, none) =>
    match persistDataAsFile env.os b fn fs with
    | ((_, some err), fs1) =>
      .returned (http.Error w err.Error http.StatusInternalServerError) fs1
    | ((path, none), fs1) =>
      match bindSession env.store w r path fn with
      | .error w1 => .returned w1 fs1
      | .ok w1 => .returned (w1.Write path) fs1

/-- The handler App (lines 80-112). The error of r.FormFile is not looked at;
when there is one the file is nil and io.ReadAll(video) panics. The error of
io.ReadAll is overwritten before it is looked at. -/
def Handler.App {σ κ : Type} (env : Env σ κ) (w : ResponseWriter κ) (r : Request κ)
    (fs : σ) : Outcome σ κ :=
  match r.FormFile "video" with
  | .error _ => .panicked w fs
  | .ok (video, videoHeader) =>
    let b := video.ReadAll.1
    let fn := videoHeader.Filename
    match persistDataAsFile env.os b fn fs with
    | ((_, some err), fs1) =>
      .returned (http.Error w err.Error http.StatusInternalServerError) fs1
    | ((path, none), fs1) =>
      match bindSession env.store w r path fn with
      | .error w1 => .returned w1 fs1
      | .ok w1 =>
        .returned (renderTemplate env.templates w1 "index" { VideoPath := path, VideoName := fn }) fs1

/-- The handler VideoPartial (lines 114-127). -/
def Handler.VideoPartial {σ κ : Type} (env : Env σ κ) (w : ResponseWriter κ) (r : Request κ)
    (fs : σ) : Outcome σ κ :=
  match env.store.Get r "app" with
  | .error err => .returned (http.Error w err.Error http.StatusInternalServerError) fs
  | .ok session =>
    match assertString (session.get "videoPath") with
    | none => .panicked w fs
    | some path =>
      match assertString (session.get "videoName") with
      | none => .panicked w fs
      | some name =>
        .returned (renderTemplate env.templates w "video" { VideoPath := path, VideoName := name }) fs

/-! ## The specification's own wording, for comparison with the code -/

/-- The extension as the specification words it: everything from the last
dot of the name onward, or the empty string if the name has no dot. -/
def lastDotSuffix : GoString → GoString
  | [] => []
  | c :: rest => if 46 ∈ rest then lastDotSuffix rest else if c = 46 then c :: rest else []

/-- The final slash-separated element of a name: what follows its last slash,
or the whole name if it has no slash. -/
def lastElement : GoString → GoString
  | [] => []
  | c :: rest => if 47 ∈ rest then lastElement rest else if c = 47 then rest else c :: rest

/-- The value of a lower-case hexadecimal digit. -/
def hexValue (c : Nat) : Option Nat :=
  if 48 ≤ c ∧ c ≤ 57 then some (c - 48)
  else if 97 ≤ c ∧ c ≤ 102 then some (c - 87)
  else none

/-- The byte sequence a lower-case hexadecimal string of even length encodes. -/
def decodeHex : GoString → Option Bytes
  | [] => some []
  | [_] => none
  | hi :: lo :: rest =>
    match hexValue hi, hexValue lo, decodeHex rest with
    | some h, some l, some bs => some ((16 * h + l) :: bs)
    | _, _, _ => none

/-! ## Sample environments, to run the program on concrete inputs -/

/-- An in-memory file system: the files as (path, content) pairs. Directory
creation always succeeds; writing a file creates it or replaces its content. -/
def memOS : OS (List (GoString × Bytes)) where
  MkdirAll := fun _ _ fs => (none, fs)
  WriteFile := fun path data _ fs => (none, (path, data) :: fs.filter (fun e => e.1 ≠ path))

/-- A file system on which nothing can be created. The errors are path
errors, as package os returns them: the operation, the path, the cause. -/
def deniedOS : OS Unit where
  MkdirAll := fun path _ fs => (some ⟨ascii "mkdir " ++ path ++ ascii ": permission denied"⟩, fs)
  WriteFile := fun path _ _ fs =>
    (some ⟨ascii "open " ++ path ++ ascii ": permission denied"⟩, fs)

/-- A file system with directories but no room for files: the write fails
with the path error of package os, which names the path. -/
def fullOS : OS Unit where
  MkdirAll := fun _ _ fs => (none, fs)
  WriteFile := fun path _ _ fs =>
    (some ⟨ascii "write " ++ path ++ ascii ": no space left on device"⟩, fs)

/-- An in-memory file system on which a file name may have 255 bytes at
most: a longer last element of the path (what follows "./uploads/") makes the
write fail with the path error of package os. -/
def nameMaxOS : OS (List (GoString × Bytes)) where
  MkdirAll := fun _ _ fs => (none, fs)
  WriteFile := fun path data _ fs =>
    if 255 < path.length - 10 then
      (some ⟨ascii "open " ++ path ++ ascii ": file name too long"⟩, fs)
    else (none, (path, data) :: fs.filter (fun e => e.1 ≠ path))

/-- A cookie store whose cookie is the values themselves. -/
def plainStore : CookieStore Values where
  decode := fun _ c => .ok c
  encode := fun _ v => .ok v

/-- A cookie store that can neither decode nor encode. -/
def brokenStore : CookieStore Values where
  decode := fun _ _ => .error ⟨ascii "securecookie: the value is not valid"⟩
  encode := fun _ _ => .error ⟨ascii "securecookie: the value is too long"⟩

/-- A template set that prints the path and the name of the video, a line each. -/
def sampleTemplates : Templates where
  ExecuteTemplate := fun _ p => (p.VideoPath ++ [10] ++ p.VideoName ++ [10], none)

/-- The sample environment: in-memory files, plain cookies, sample templates. -/
def sampleEnv : Env (List (GoString × Bytes)) Values := ⟨memOS, plainStore, sampleTemplates⟩

/-- A PUT request with the given File-Name header, body and session cookie. -/
def putRequest (fileName : GoString) (body : Bytes) (cookie : Option Values) : Request Values where
  Header := fun k => if k = "File-Name" then fileName else []
  Body := (body, none)
  Cookie := fun k => if k = "app" then cookie else none
  FormFile := fun _ => .error ⟨ascii "request Content-Type isn't multipart/form-data"⟩

/-- A GET request with the given session cookie. -/
def getRequest (cookie : Option Values) : Request Values where
  Header := fun _ => []
  Body := ([], none)
  Cookie := fun k => if k = "app" then cookie else none
  FormFile := fun _ => .error ⟨ascii "request Content-Type isn't multipart/form-data"⟩

/-- A multipart POST request whose form has no file field. -/
def emptyFormRequest (cookie : Option Values) : Request Values where
  Header := fun _ => []
  Body := ([], none)
  Cookie := fun k => if k = "app" then cookie else none
  FormFile := fun _ => .error ⟨ascii "http: no such file"⟩

/-! # Theorems -/

/-! ## The hexadecimal verb -/

theorem fmtSbx_length (b : Bytes) : (fmt.fmtSbx b).length = 2 * b.length := by
  induction b with
  | nil => rfl
  | cons c rest ih =>
    rw [fmt.fmtSbx, List.length_cons, List.length_cons, ih, List.length_cons]
    omega

theorem hexValue_ldigits : ∀ i, i < 16 → hexValue (fmt.ldigits.getD i 0) = some i := by
  decide

theorem hexValue_range (c v : Nat) (h : hexValue c = some v) :
    (48 ≤ c ∧ c ≤ 57) ∨ (97 ≤ c ∧ c ≤ 102) := by
  unfold hexValue at h
  split at h
  · left; assumption
  · split at h
    · right; assumption
    · cases h

theorem byte_digits (c : Nat) :
    (c % 256) >>> 4 < 16 ∧ (c % 256) &&& 0xF < 16 ∧
      16 * ((c % 256) >>> 4) + ((c % 256) &&& 0xF) = c % 256 := by
  have h1 : (c % 256) >>> 4 = c % 256 / 16 := by
    rw [Nat.shiftRight_eq_div_pow]
  have h2 : (c % 256) &&& 0xF = c % 256 % 16 := by
    exact Nat.and_pow_two_sub_one_eq_mod (c % 256) 4
  rw [h1, h2]
  omega

theorem decodeHex_fmtSbx (b : Bytes) : decodeHex (fmt.fmtSbx b) = some (b.map (fun c => c % 256)) := by
  induction b with
  | nil => rfl
  | cons c rest ih =>
    obtain ⟨h1, h2, h3⟩ := byte_digits c
    simp only [fmt.fmtSbx, decodeHex, hexValue_ldigits _ h1, hexValue_ldigits _ h2, ih, h3,
      List.map_cons]

theorem fmtSbx_digit (b : Bytes) : ∀ x ∈ fmt.fmtSbx b, (48 ≤ x ∧ x ≤ 57) ∨ (97 ≤ x ∧ x ≤ 102) := by
  induction b with
  | nil => intro x hx; cases hx
  | cons c rest ih =>
    obtain ⟨h1, h2, _⟩ := byte_digits c
    intro x hx
    simp only [fmt.fmtSbx, List.mem_cons] at hx
    rcases hx with hx | hx | hx
    · exact hexValue_range x _ (hx ▸ hexValue_ldigits _ h1)
    · exact hexValue_range x _ (hx ▸ hexValue_ldigits _ h2)
    · exact ih x hx

theorem map_mod_of_lt (b : Bytes) (h : ∀ x ∈ b, x < 256) : b.map (fun c => c % 256) = b := by
  induction b with
  | nil => rfl
  | cons c rest ih =>
    simp only [List.map_cons]
    rw [ih (fun x hx => h x (List.mem_cons_of_mem _ hx)), Nat.mod_eq_of_lt (h c (List.mem_cons_self _ _))]

theorem fmtSbx_injective (b1 b2 : Bytes) (h1 : ∀ x ∈ b1, x < 256) (h2 : ∀ x ∈ b2, x < 256)
    (h : fmt.fmtSbx b1 = fmt.fmtSbx b2) : b1 = b2 := by
  have e1 := decodeHex_fmtSbx b1
  have e2 := decodeHex_fmtSbx b2
  rw [map_mod_of_lt b1 h1] at e1
  rw [map_mod_of_lt b2 h2] at e2
  rw [h, e2] at e1
  exact (Option.some.inj e1).symm

/-! ## The checksum -/

theorem Sum256_length (data : Bytes) : (sha256.Sum256 data).length = 32 := by
  simp [sha256.Sum256, sha256.putUint32]

theorem Sum256_lt (data : Bytes) : ∀ x ∈ sha256.Sum256 data, x < 256 := by
  intro x hx
  simp only [sha256.Sum256, sha256.putUint32, List.mem_append, List.mem_cons, List.mem_singleton,
    List.not_mem_nil, or_false] at hx
  rcases hx with ((((((h | h) | h) | h) | h) | h) | h) | h <;>
    rcases h with h | h | h | h <;> subst h <;> exact Nat.mod_lt _ (by norm_num)

theorem hex_Sum256_length (data : Bytes) : (fmt.fmtSbx (sha256.Sum256 data)).length = 64 := by
  rw [fmtSbx_length, Sum256_length]

/-! ## The path of a stored object -/

theorem persistPath_eq (data : Bytes) (fileName : GoString) :
    persistPath data fileName =
      ascii "./uploads/" ++ (fmt.fmtSbx (sha256.Sum256 data) ++ filepath.Ext fileName) := by
  have hf : uploadsDir ++ ascii "/%x%s" =
      [46, 47, 117, 112, 108, 111, 97, 100, 115, 47, 37, 120, 37, 115] := by decide
  have hp : ascii "./uploads/" = [46, 47, 117, 112, 108, 111, 97, 100, 115, 47] := by decide
  simp [persistPath, hf, hp, fmt.Sprintf, fmt.doPrintf, fmt.printArg, fmt.extraArgs, fmt.Arg.data,
    sha256.New, sha256.digest.Write, sha256.digest.Sum]

/-! ## The extension -/

theorem lastElement_of_not_mem (s : GoString) (h : 47 ∉ s) : lastElement s = s := by
  cases s with
  | nil => rfl
  | cons c rest =>
    have hc : c ≠ 47 := fun e => h (e ▸ List.mem_cons_self _ _)
    have hr : 47 ∉ rest := fun m => h (List.mem_cons_of_mem _ m)
    simp [lastElement, hc, hr]

theorem lastDotSuffix_of_not_mem (s : GoString) (h : 46 ∉ s) : lastDotSuffix s = [] := by
  cases s with
  | nil => rfl
  | cons c rest =>
    have hc : c ≠ 46 := fun e => h (e ▸ List.mem_cons_self _ _)
    have hr : 46 ∉ rest := fun m => h (List.mem_cons_of_mem _ m)
    simp [lastDotSuffix, hc, hr]

theorem lastElement_append_slash (p ys : GoString) (h : 47 ∉ ys) :
    lastElement (p ++ 47 :: ys) = ys := by
  induction p with
  | nil => simp [lastElement, h]
  | cons c rest ih => simp [lastElement, ih]

theorem lastDotSuffix_append_dot (p ys : GoString) (h : 46 ∉ ys) :
    lastDotSuffix (p ++ 46 :: ys) = 46 :: ys := by
  induction p with
  | nil => simp [lastDotSuffix, h]
  | cons c rest ih => simp [lastDotSuffix, ih]

theorem lastElement_append (p t : GoString) (h : 47 ∉ t) :
    lastElement (p ++ t) = lastElement p ++ t := by
  induction p with
  | nil => simpa [lastElement] using lastElement_of_not_mem t h
  | cons c rest ih =>
    by_cases hr : 47 ∈ rest
    · simp [lastElement, hr, ih]
    · by_cases hc : c = 47
      · simp [lastElement, hr, h, hc]
      · simp [lastElement, hr, h, hc]

theorem lastElement_no_slash (s : GoString) : 47 ∉ lastElement s := by
  induction s with
  | nil => simp [lastElement]
  | cons c rest ih =>
    by_cases hr : 47 ∈ rest
    · simpa [lastElement, hr] using ih
    · by_cases hc : c = 47
      · simp [lastElement, hr, hc]
      · simp only [lastElement, hr, hc, if_false]
        intro hm
        rcases List.mem_cons.1 hm with e | m
        · exact hc e.symm
        · exact hr m

theorem lastDotSuffix_subset (s : GoString) : ∀ x ∈ lastDotSuffix s, x ∈ s := by
  induction s with
  | nil => intro x hx; simp [lastDotSuffix] at hx
  | cons c rest ih =>
    intro x hx
    by_cases hr : 46 ∈ rest
    · simp only [lastDotSuffix, hr, if_true] at hx
      exact List.mem_cons_of_mem _ (ih x hx)
    · by_cases hc : c = 46
      · simpa [lastDotSuffix, hr, hc] using hx
      · simp [lastDotSuffix, hr, hc] at hx

theorem extLoop_append (xs : GoString) :
    ∀ ys : GoString, 46 ∉ ys → 47 ∉ ys →
      filepath.extLoop (xs ++ ys) xs.length = lastDotSuffix (lastElement (xs ++ ys)) := by
  induction xs using List.reverseRecOn with
  | nil =>
    intro ys h46 h47
    simp [filepath.extLoop, lastElement_of_not_mem ys h47, lastDotSuffix_of_not_mem ys h46]
  | append_singleton xs c ih =>
    intro ys h46 h47
    have hget : (xs ++ [c] ++ ys).getD xs.length 0 = c := by
      rw [List.append_assoc, List.getD_eq_getElem?_getD,
        List.getElem?_append_right (le_refl _)]
      simp
    have hdrop : (xs ++ [c] ++ ys).drop xs.length = c :: ys := by
      simp [List.drop_append_eq_append_drop]
    rw [List.length_append, List.length_singleton, filepath.extLoop, hget]
    by_cases h1 : c = 47
    · subst h1
      simp [filepath.IsPathSeparator, lastElement_append_slash _ ys h47,
        lastDotSuffix_of_not_mem ys h46]
    · by_cases h2 : c = 46
      · subst h2
        have hle : lastElement (xs ++ [46] ++ ys) = lastElement xs ++ 46 :: ys := by
          rw [List.append_assoc, lastElement_append]
          · rfl
          · simpa using h47
        rw [hle, lastDotSuffix_append_dot _ ys h46, hdrop]
        simp [filepath.IsPathSeparator]
      · have h46c : 46 ∉ c :: ys := by
          intro hm
          rcases List.mem_cons.1 hm with e | m
          · exact h2 e.symm
          · exact h46 m
        have h47c : 47 ∉ c :: ys := by
          intro hm
          rcases List.mem_cons.1 hm with e | m
          · exact h1 e.symm
          · exact h47 m
        have := ih (c :: ys) h46c h47c
        simp only [filepath.IsPathSeparator, beq_iff_eq, h1, h2, if_false]
        simpa [List.append_assoc] using this

theorem Ext_eq_lastDotSuffix (fileName : GoString) :
    filepath.Ext fileName = lastDotSuffix (lastElement fileName) := by
  have := extLoop_append fileName [] (by simp) (by simp)
  simpa [filepath.Ext] using this

theorem Ext_no_slash (fileName : GoString) : 47 ∉ filepath.Ext fileName := by
  rw [Ext_eq_lastDotSuffix]
  intro h
  exact lastElement_no_slash fileName (lastDotSuffix_subset _ _ h)

theorem lastElement_subset (s : GoString) : ∀ x ∈ lastElement s, x ∈ s := by
  induction s with
  | nil => intro x hx; simp [lastElement] at hx
  | cons c rest ih =>
    intro x hx
    by_cases hr : 47 ∈ rest
    · simp only [lastElement, hr, if_true] at hx
      exact List.mem_cons_of_mem _ (ih x hx)
    · by_cases hc : c = 47
      · simp only [lastElement, hr, hc, if_true, if_false] at hx
        exact List.mem_cons_of_mem _ hx
      · simpa [lastElement, hr, hc] using hx

theorem Ext_of_no_dot (fileName : GoString) (h : 46 ∉ fileName) : filepath.Ext fileName = [] := by
  rw [Ext_eq_lastDotSuffix]
  exact lastDotSuffix_of_not_mem _ (fun hm => h (lastElement_subset _ _ hm))

theorem Ext_of_suffix (stem ext : GoString) (h46 : 46 ∉ ext) (h47 : 47 ∉ ext) :
    filepath.Ext (stem ++ 46 :: ext) = 46 :: ext := by
  have h : 47 ∉ 46 :: ext := by
    intro hm
    rcases List.mem_cons.1 hm with e | m
    · cases e
    · exact h47 m
  rw [Ext_eq_lastDotSuffix, lastElement_append _ _ h, lastDotSuffix_append_dot _ _ h46]


theorem exists_last_split (a : Nat) (s : GoString) (h : a ∈ s) :
    ∃ p t, s = p ++ a :: t ∧ a ∉ t := by
  induction s with
  | nil => cases h
  | cons c rest ih =>
    by_cases hr : a ∈ rest
    · obtain ⟨p, t, hs, ht⟩ := ih hr
      exact ⟨c :: p, t, by rw [hs]; rfl, ht⟩
    · rcases List.mem_cons.1 h with e | m
      · exact ⟨[], rest, by rw [e]; rfl, hr⟩
      · exact (hr m).elim

/-- The extension of the code in terms of the suffix from the last dot of the
whole name: that suffix, unless a slash occurs in it. -/
theorem Ext_eq_of_lastDotSuffix (fileName : GoString) :
    filepath.Ext fileName =
      if 47 ∈ lastDotSuffix fileName then [] else lastDotSuffix fileName := by
  rw [Ext_eq_lastDotSuffix]
  by_cases hdot : 46 ∈ fileName
  · obtain ⟨p, t, hs, ht⟩ := exists_last_split 46 fileName hdot
    subst hs
    rw [lastDotSuffix_append_dot p t ht]
    by_cases hsl : 47 ∈ t
    · obtain ⟨t1, t2, hts, ht2⟩ := exists_last_split 47 t hsl
      subst hts
      have h46 : 46 ∉ t2 := fun m => ht (List.mem_append_right _ (List.mem_cons_of_mem _ m))
      have hle : lastElement (p ++ 46 :: (t1 ++ 47 :: t2)) = t2 := by
        have := lastElement_append_slash (p ++ 46 :: t1) t2 ht2
        simpa [List.append_assoc] using this
      rw [hle, lastDotSuffix_of_not_mem t2 h46]
      simp
    · have h47 : 47 ∉ 46 :: t := by
        intro hm
        rcases List.mem_cons.1 hm with e | m
        · cases e
        · exact hsl m
      rw [lastElement_append p _ h47, lastDotSuffix_append_dot _ t ht, if_neg h47]
  · rw [lastDotSuffix_of_not_mem fileName hdot,
      lastDotSuffix_of_not_mem _ (fun m => hdot (lastElement_subset _ _ m))]
    simp

/-! ## persistDataAsFile -/

theorem persistDataAsFile_mkdir_failed {σ : Type} (os : OS σ) (data : Bytes) (fileName : GoString)
    (fs : σ) (err : GoError) (h : (os.MkdirAll uploadsDir ModePerm fs).1 = some err) :
    persistDataAsFile os data fileName fs = (([], some err), (os.MkdirAll uploadsDir ModePerm fs).2) := by
  rcases hm : os.MkdirAll uploadsDir ModePerm fs with ⟨e, s⟩
  rw [hm] at h
  simp only at h
  subst h
  simp only [persistDataAsFile, hm]

theorem persistDataAsFile_write_failed {σ : Type} (os : OS σ) (data : Bytes) (fileName : GoString)
    (fs : σ) (err : GoError) (h : (os.MkdirAll uploadsDir ModePerm fs).1 = none)
    (hw : (os.WriteFile (persistPath data fileName) data 0o666
      (os.MkdirAll uploadsDir ModePerm fs).2).1 = some err) :
    persistDataAsFile os data fileName fs =
      (([], some err), (os.WriteFile (persistPath data fileName) data 0o666
        (os.MkdirAll uploadsDir ModePerm fs).2).2) := by
  rcases hm : os.MkdirAll uploadsDir ModePerm fs with ⟨e, s⟩
  rw [hm] at h hw
  simp only at h hw
  subst h
  rcases hq : os.WriteFile (persistPath data fileName) data 0o666 s with ⟨e2, s2⟩
  rw [hq] at hw
  simp only at hw
  subst hw
  simp only [persistDataAsFile, hm, hq]

theorem persistDataAsFile_succeeded {σ : Type} (os : OS σ) (data : Bytes) (fileName : GoString)
    (fs : σ) (h : (os.MkdirAll uploadsDir ModePerm fs).1 = none)
    (hw : (os.WriteFile (persistPath data fileName) data 0o666
      (os.MkdirAll uploadsDir ModePerm fs).2).1 = none) :
    persistDataAsFile os data fileName fs =
      ((persistPath data fileName, none), (os.WriteFile (persistPath data fileName) data 0o666
        (os.MkdirAll uploadsDir ModePerm fs).2).2) := by
  rcases hm : os.MkdirAll uploadsDir ModePerm fs with ⟨e, s⟩
  rw [hm] at h hw
  simp only at h hw
  subst h
  rcases hq : os.WriteFile (persistPath data fileName) data 0o666 s with ⟨e2, s2⟩
  rw [hq] at hw
  simp only at hw
  subst hw
  simp only [persistDataAsFile, hm, hq]

/-- The three ways a call of persistDataAsFile ends. -/
theorem persistDataAsFile_cases {σ : Type} (os : OS σ) (data : Bytes) (fileName : GoString)
    (fs : σ) :
    (∃ err, (os.MkdirAll uploadsDir ModePerm fs).1 = some err ∧
      persistDataAsFile os data fileName fs =
        (([], some err), (os.MkdirAll uploadsDir ModePerm fs).2)) ∨
    (∃ err, (os.MkdirAll uploadsDir ModePerm fs).1 = none ∧
      (os.WriteFile (persistPath data fileName) data 0o666
        (os.MkdirAll uploadsDir ModePerm fs).2).1 = some err ∧
      persistDataAsFile os data fileName fs =
        (([], some err), (os.WriteFile (persistPath data fileName) data 0o666
          (os.MkdirAll uploadsDir ModePerm fs).2).2)) ∨
    ((os.MkdirAll uploadsDir ModePerm fs).1 = none ∧
      (os.WriteFile (persistPath data fileName) data 0o666
        (os.MkdirAll uploadsDir ModePerm fs).2).1 = none ∧
      persistDataAsFile os data fileName fs =
        ((persistPath data fileName, none), (os.WriteFile (persistPath data fileName) data 0o666
          (os.MkdirAll uploadsDir ModePerm fs).2).2)) := by
  cases h : (os.MkdirAll uploadsDir ModePerm fs).1 with
  | some err => exact Or.inl ⟨err, rfl, persistDataAsFile_mkdir_failed os data fileName fs err h⟩
  | none =>
    cases hw : (os.WriteFile (persistPath data fileName) data 0o666
        (os.MkdirAll uploadsDir ModePerm fs).2).1 with
    | some err =>
      exact Or.inr (Or.inl ⟨err, rfl, rfl, persistDataAsFile_write_failed os data fileName fs err h hw⟩)
    | none =>
      exact Or.inr (Or.inr ⟨rfl, rfl, persistDataAsFile_succeeded os data fileName fs h hw⟩)

/-- A call that returns no error returns the path it computed. -/
theorem persistDataAsFile_ok_path {σ : Type} (os : OS σ) (data : Bytes) (fileName : GoString)
    (fs : σ) (h : (persistDataAsFile os data fileName fs).1.2 = none) :
    (persistDataAsFile os data fileName fs).1.1 = persistPath data fileName ∧
    (os.MkdirAll uploadsDir ModePerm fs).1 = none ∧
    (os.WriteFile (persistPath data fileName) data 0o666
      (os.MkdirAll uploadsDir ModePerm fs).2).1 = none := by
  rcases persistDataAsFile_cases os data fileName fs with ⟨err, _, he⟩ | ⟨err, _, _, he⟩ | ⟨h1, h2, he⟩
  · rw [he] at h; cases h
  · rw [he] at h; cases h
  · rw [he]; exact ⟨rfl, h1, h2⟩

/-- A call that returns an error returns the empty string. -/
theorem persistDataAsFile_err_empty {σ : Type} (os : OS σ) (data : Bytes) (fileName : GoString)
    (fs : σ) (err : GoError) (h : (persistDataAsFile os data fileName fs).1.2 = some err) :
    (persistDataAsFile os data fileName fs).1.1 = [] := by
  rcases persistDataAsFile_cases os data fileName fs with ⟨e, _, he⟩ | ⟨e, _, _, he⟩ | ⟨_, _, he⟩
  · rw [he]
  · rw [he]
  · rw [he] at h; cases h

theorem persistPath_eq_iff (b1 b2 : Bytes) (n1 n2 : GoString) :
    persistPath b1 n1 = persistPath b2 n2 ↔
      sha256.Sum256 b1 = sha256.Sum256 b2 ∧ filepath.Ext n1 = filepath.Ext n2 := by
  rw [persistPath_eq, persistPath_eq]
  constructor
  · intro h
    have h2 := List.append_cancel_left h
    have hlen : (fmt.fmtSbx (sha256.Sum256 b1)).length = (fmt.fmtSbx (sha256.Sum256 b2)).length := by
      rw [hex_Sum256_length, hex_Sum256_length]
    obtain ⟨ha, hb⟩ := List.append_inj h2 hlen
    exact ⟨fmtSbx_injective _ _ (Sum256_lt b1) (Sum256_lt b2) ha, hb⟩
  · rintro ⟨ha, hb⟩
    rw [ha, hb]

/-! ## Test vectors -/

set_option maxRecDepth 100000 in
theorem Sum256_abc : sha256.Sum256 (ascii "abc") =
    [0xba, 0x78, 0x16, 0xbf, 0x8f, 0x01, 0xcf, 0xea, 0x41, 0x41, 0x40, 0xde, 0x5d, 0xae, 0x22, 0x23,
     0xb0, 0x03, 0x61, 0xa3, 0x96, 0x17, 0x7a, 0x9c, 0xb4, 0x10, 0xff, 0x61, 0xf2, 0x00, 0x15, 0xad] := by
  decide!

set_option maxRecDepth 100000 in
theorem Sum256_empty : sha256.Sum256 [] =
    [0xe3, 0xb0, 0xc4, 0x42, 0x98, 0xfc, 0x1c, 0x14, 0x9a, 0xfb, 0xf4, 0xc8, 0x99, 0x6f, 0xb9, 0x24,
     0x27, 0xae, 0x41, 0xe4, 0x64, 0x9b, 0x93, 0x4c, 0xa4, 0x95, 0x99, 0x1b, 0x78, 0x52, 0xb8, 0x55] := by
  decide!

set_option maxRecDepth 100000 in
theorem Sum256_two_blocks :
    sha256.Sum256 (ascii "abcdbcdecdefdefgefghfghighijhijkijkljklmklmnlmnomnopnopq") =
    [0x24, 0x8d, 0x6a, 0x61, 0xd2, 0x06, 0x38, 0xb8, 0xe5, 0xc0, 0x26, 0x93, 0x0c, 0x3e, 0x60, 0x39,
     0xa3, 0x3c, 0xe4, 0x59, 0x64, 0xff, 0x21, 0x67, 0xf6, 0xec, 0xed, 0xd4, 0x19, 0xdb, 0x06, 0xc1] := by
  decide!

theorem persistPath_abc (fileName : GoString) : persistPath (ascii "abc") fileName =
    ascii "./uploads/ba7816bf8f01cfea414140de5dae2223b00361a396177a9cb410ff61f20015ad" ++
      filepath.Ext fileName := by
  rw [persistPath_eq, Sum256_abc, ← List.append_assoc]
  congr 1

theorem persistPath_empty (fileName : GoString) : persistPath [] fileName =
    ascii "./uploads/e3b0c44298fc1c149afbf4c8996fb92427ae41e4649b934ca495991b7852b855" ++
      filepath.Ext fileName := by
  rw [persistPath_eq, Sum256_empty, ← List.append_assoc]
  congr 1

theorem uploads_slash : ascii "./uploads" ++ ascii "/" = ascii "./uploads/" := by decide


/-! ## Session values -/

theorem Values.get_set_same (m : Values) (k : String) (v : Value) : (m.set k v).get k = some v := by
  induction m with
  | nil => simp [Values.set, Values.get]
  | cons e rest ih =>
    obtain ⟨k1, v1⟩ := e
    by_cases h : k1 = k
    · simp [Values.set, Values.get, h]
    · simp [Values.set, Values.get, h, ih]

theorem Values.get_set_other (m : Values) (k k2 : String) (v : Value) (hne : k2 ≠ k) :
    (m.set k v).get k2 = m.get k2 := by
  induction m with
  | nil => simp [Values.set, Values.get, Ne.symm hne]
  | cons e rest ih =>
    obtain ⟨k1, v1⟩ := e
    by_cases h : k1 = k
    · subst h
      simp [Values.set, Values.get, Ne.symm hne]
    · by_cases h2 : k1 = k2
      · subst h2
        simp [Values.set, Values.get, hne]
      · simp [Values.set, Values.get, h, h2, ih]

theorem bindVideo_get (session : Values) (path fn : GoString) (k : String) :
    (bindVideo session path fn).get k =
      if k = "videoName" then some (.string fn)
      else if k = "videoPath" then some (.string path)
      else session.get k := by
  unfold bindVideo
  by_cases h1 : k = "videoName"
  · subst h1
    simp [Values.get_set_same]
  · by_cases h2 : k = "videoPath"
    · subst h2
      rw [Values.get_set_other _ _ _ _ h1, Values.get_set_same]
      simp
    · rw [Values.get_set_other _ _ _ _ h1, Values.get_set_other _ _ _ _ h2]
      simp [h1, h2]

/-! ## The response writer -/

theorem http_Error_unwritten {κ : Type} (w : ResponseWriter κ) (msg : GoString) (code : Nat)
    (h : w.status = none) :
    http.Error w msg code = ⟨some code, w.body ++ (msg ++ [10]), w.cookies⟩ := by
  obtain ⟨s, b, c⟩ := w
  simp only at h
  subst h
  rfl

theorem http_Error_cookies {κ : Type} (w : ResponseWriter κ) (msg : GoString) (code : Nat) :
    (http.Error w msg code).cookies = w.cookies := by
  obtain ⟨s, b, c⟩ := w
  cases s <;> rfl

theorem SetCookie_Write_unwritten {κ : Type} (w : ResponseWriter κ) (c : κ) (b : Bytes)
    (h : w.status = none) :
    (http.SetCookie w "app" c).Write b = ⟨some 200, w.body ++ b, w.cookies ++ [("app", c)]⟩ := by
  obtain ⟨s, bd, cs⟩ := w
  simp only at h
  subst h
  rfl

theorem infix_of_infix_newline (ref msg : GoString) (hne : ref ≠ []) (h10 : 10 ∉ ref)
    (h : ref <:+: msg ++ [10]) : ref <:+: msg := by
  obtain ⟨s, t, hst⟩ := h
  rcases List.eq_nil_or_concat t with ht | ⟨t1, c, ht⟩
  · subst ht
    rcases List.eq_nil_or_concat ref with hr | ⟨r1, x, hr⟩
    · exact (hne hr).elim
    · subst hr
      rw [List.append_nil, List.concat_eq_append, ← List.append_assoc] at hst
      have hx := (List.append_inj' hst rfl).2
      have : x = 10 := by simpa using hx
      subst this
      exact (h10 (by simp)).elim
  · subst ht
    rw [List.concat_eq_append, ← List.append_assoc] at hst
    exact ⟨s, t1, (List.append_inj' hst rfl).1⟩

/-! ## The handlers -/

theorem bindSession_get_failed {κ : Type} (store : CookieStore κ) (w : ResponseWriter κ)
    (r : Request κ) (path fn : GoString) (err : GoError) (h : store.Get r "app" = .error err) :
    bindSession store w r path fn = .error (http.Error w err.Error 500) := by
  simp only [bindSession, h, http.StatusInternalServerError]

theorem bindSession_save_failed {κ : Type} (store : CookieStore κ) (w : ResponseWriter κ)
    (r : Request κ) (path fn : GoString) (session : Values) (err : GoError)
    (h : store.Get r "app" = .ok session)
    (he : store.encode "app" (bindVideo session path fn) = .error err) :
    bindSession store w r path fn = .error (http.Error w err.Error 500) := by
  simp only [bindSession, h, CookieStore.Save, he, http.StatusInternalServerError]

theorem bindSession_saved {κ : Type} (store : CookieStore κ) (w : ResponseWriter κ)
    (r : Request κ) (path fn : GoString) (session : Values) (c : κ)
    (h : store.Get r "app" = .ok session)
    (he : store.encode "app" (bindVideo session path fn) = .ok c) :
    bindSession store w r path fn = .ok (http.SetCookie w "app" c) := by
  simp only [bindSession, h, CookieStore.Save, he]

theorem bindSession_cases {κ : Type} (store : CookieStore κ) (w : ResponseWriter κ)
    (r : Request κ) (path fn : GoString) :
    (∃ err, store.Get r "app" = .error err ∧
      bindSession store w r path fn = .error (http.Error w err.Error 500)) ∨
    (∃ session err, store.Get r "app" = .ok session ∧
      store.encode "app" (bindVideo session path fn) = .error err ∧
      bindSession store w r path fn = .error (http.Error w err.Error 500)) ∨
    (∃ session c, store.Get r "app" = .ok session ∧
      store.encode "app" (bindVideo session path fn) = .ok c ∧
      bindSession store w r path fn = .ok (http.SetCookie w "app" c)) := by
  cases h : store.Get r "app" with
  | error err => exact Or.inl ⟨err, rfl, bindSession_get_failed store w r path fn err h⟩
  | ok session =>
    cases he : store.encode "app" (bindVideo session path fn) with
    | error err =>
      exact Or.inr (Or.inl ⟨session, err, rfl, he,
        bindSession_save_failed store w r path fn session err h he⟩)
    | ok c =>
      exact Or.inr (Or.inr ⟨session, c, rfl, he, bindSession_saved store w r path fn session c h he⟩)

theorem PutVideo_of_body {σ κ : Type} (env : Env σ κ) (w : ResponseWriter κ) (r : Request κ)
    (fs : σ) (b : Bytes) (hb : r.Body = (b, none)) :
    Handler.PutVideo env w r fs =
      match persistDataAsFile env.os b (r.Header "File-Name") fs with
      | ((_, some err), fs1) => .returned (http.Error w err.Error 500) fs1
      | ((path, none), fs1) =>
        match bindSession env.store w r path (r.Header "File-Name") with
        | .error w1 => .returned w1 fs1
        | .ok w1 => .returned (w1.Write path) fs1 := by
  simp only [Handler.PutVideo, hb, http.StatusInternalServerError]

theorem PutVideo_persist_failed {σ κ : Type} (env : Env σ κ) (w : ResponseWriter κ)
    (r : Request κ) (fs : σ) (b : Bytes) (err : GoError) (hb : r.Body = (b, none))
    (h : (persistDataAsFile env.os b (r.Header "File-Name") fs).1.2 = some err) :
    Handler.PutVideo env w r fs = .returned (http.Error w err.Error 500)
      (persistDataAsFile env.os b (r.Header "File-Name") fs).2 := by
  rw [PutVideo_of_body env w r fs b hb]
  rcases hp : persistDataAsFile env.os b (r.Header "File-Name") fs with ⟨⟨path, e⟩, fs1⟩
  rw [hp] at h
  simp only at h
  subst h
  rfl

theorem PutVideo_persisted {σ κ : Type} (env : Env σ κ) (w : ResponseWriter κ)
    (r : Request κ) (fs : σ) (b : Bytes) (hb : r.Body = (b, none))
    (h : (persistDataAsFile env.os b (r.Header "File-Name") fs).1.2 = none) :
    Handler.PutVideo env w r fs =
      match bindSession env.store w r (persistDataAsFile env.os b (r.Header "File-Name") fs).1.1
          (r.Header "File-Name") with
      | .error w1 => .returned w1 (persistDataAsFile env.os b (r.Header "File-Name") fs).2
      | .ok w1 =>
        .returned (w1.Write (persistDataAsFile env.os b (r.Header "File-Name") fs).1.1)
          (persistDataAsFile env.os b (r.Header "File-Name") fs).2 := by
  rw [PutVideo_of_body env w r fs b hb]
  rcases hp : persistDataAsFile env.os b (r.Header "File-Name") fs with ⟨⟨path, e⟩, fs1⟩
  rw [hp] at h
  simp only at h
  subst h
  rfl

theorem VideoPartial_bound {σ κ : Type} (env : Env σ κ) (w : ResponseWriter κ) (r : Request κ)
    (fs : σ) (session : Values) (path name : GoString)
    (h : env.store.Get r "app" = .ok session)
    (hp : session.get "videoPath" = some (.string path))
    (hn : session.get "videoName" = some (.string name)) :
    Handler.VideoPartial env w r fs =
      .returned (renderTemplate env.templates w "video"
        { VideoPath := path, VideoName := name }) fs := by
  simp only [Handler.VideoPartial, h, hp, hn, assertString]
/-! ## The claims on the content store -/

/-- C1: when directory creation and the file write both succeed,
persistDataAsFile returns, with a nil error, exactly the string "./uploads"
followed by "/", by H and by E, where H is the lower-case hexadecimal
encoding of the SHA-256 checksum of the data (64 characters, each one of
0-9 and a-f, decoding back to the checksum) and E is the extension that
filepath.Ext derives from the file name; for every data and every file name,
the empty ones included. -/
theorem persistDataAsFile_returns_reference {σ : Type} (os : OS σ) (data : Bytes)
    (fileName : GoString) (fs : σ)
    (hmk : (os.MkdirAll (ascii "./uploads") ModePerm fs).1 = none)
    (hwr : (os.WriteFile
      (ascii "./uploads" ++ ascii "/" ++ fmt.fmtSbx (sha256.Sum256 data) ++ filepath.Ext fileName)
      data 0o666 (os.MkdirAll (ascii "./uploads") ModePerm fs).2).1 = none) :
    (persistDataAsFile os data fileName fs).1 =
        (ascii "./uploads" ++ ascii "/" ++ fmt.fmtSbx (sha256.Sum256 data) ++ filepath.Ext fileName,
          none) ∧
      (fmt.fmtSbx (sha256.Sum256 data)).length = 64 ∧
      (∀ x ∈ fmt.fmtSbx (sha256.Sum256 data), (48 ≤ x ∧ x ≤ 57) ∨ (97 ≤ x ∧ x ≤ 102)) ∧
      decodeHex (fmt.fmtSbx (sha256.Sum256 data)) = some (sha256.Sum256 data) := by
  have hp : ascii "./uploads" ++ ascii "/" ++ fmt.fmtSbx (sha256.Sum256 data) ++
      filepath.Ext fileName = persistPath data fileName := by
    rw [persistPath_eq, uploads_slash, List.append_assoc]
  rw [hp] at hwr ⊢
  refine ⟨?_, hex_Sum256_length data, fmtSbx_digit _, ?_⟩
  · rw [persistDataAsFile_succeeded os data fileName fs hmk hwr]
  · rw [decodeHex_fmtSbx, map_mod_of_lt _ (Sum256_lt data)]

/-- C1, at concrete inputs: the bytes "abc" stored as "clip.mp4", and the
empty content stored under the empty name, on the in-memory file system. -/
theorem persistDataAsFile_abc_clip :
    (persistDataAsFile memOS (ascii "abc") (ascii "clip.mp4") []).1 =
        (ascii "./uploads/ba7816bf8f01cfea414140de5dae2223b00361a396177a9cb410ff61f20015ad.mp4",
          none) ∧
      (persistDataAsFile memOS [] [] []).1 =
        (ascii "./uploads/e3b0c44298fc1c149afbf4c8996fb92427ae41e4649b934ca495991b7852b855",
          none) := by
  constructor
  · rw [(persistDataAsFile_returns_reference memOS (ascii "abc") (ascii "clip.mp4") [] rfl rfl).1,
      Sum256_abc]
    decide
  · rw [(persistDataAsFile_returns_reference memOS [] [] [] rfl rfl).1, Sum256_empty]
    decide

/-- C2, as stated, fails: the same content stored under the names "a.mp4"
and "a.txt" gives two successful calls with different references. -/
theorem same_content_different_reference :
    (persistDataAsFile memOS (ascii "abc") (ascii "a.mp4") []).1 =
        (ascii "./uploads/ba7816bf8f01cfea414140de5dae2223b00361a396177a9cb410ff61f20015ad.mp4",
          none) ∧
      (persistDataAsFile memOS (ascii "abc") (ascii "a.txt") []).1 =
        (ascii "./uploads/ba7816bf8f01cfea414140de5dae2223b00361a396177a9cb410ff61f20015ad.txt",
          none) ∧
      (persistDataAsFile memOS (ascii "abc") (ascii "a.mp4") []).1.1 ≠
        (persistDataAsFile memOS (ascii "abc") (ascii "a.txt") []).1.1 := by
  have h1 : (persistDataAsFile memOS (ascii "abc") (ascii "a.mp4") []).1 =
      (ascii "./uploads/ba7816bf8f01cfea414140de5dae2223b00361a396177a9cb410ff61f20015ad.mp4",
        none) := by
    rw [persistDataAsFile_succeeded memOS _ _ [] rfl rfl, persistPath_abc]
    decide
  have h2 : (persistDataAsFile memOS (ascii "abc") (ascii "a.txt") []).1 =
      (ascii "./uploads/ba7816bf8f01cfea414140de5dae2223b00361a396177a9cb410ff61f20015ad.txt",
        none) := by
    rw [persistDataAsFile_succeeded memOS _ _ [] rfl rfl, persistPath_abc]
    decide
  refine ⟨h1, h2, ?_⟩
  rw [h1, h2]
  decide

/-- C2, amended: two successful calls of persistDataAsFile on the same
content return the same reference exactly when the two file names have the
same extension (filepath.Ext); the reference depends on the name through its
extension only. -/
theorem same_content_same_reference_iff {σ : Type} (os : OS σ) (b : Bytes) (n1 n2 : GoString)
    (fs1 fs2 : σ)
    (h1 : (persistDataAsFile os b n1 fs1).1.2 = none)
    (h2 : (persistDataAsFile os b n2 fs2).1.2 = none) :
    (persistDataAsFile os b n1 fs1).1.1 = (persistDataAsFile os b n2 fs2).1.1 ↔
      filepath.Ext n1 = filepath.Ext n2 := by
  rw [(persistDataAsFile_ok_path os b n1 fs1 h1).1, (persistDataAsFile_ok_path os b n2 fs2 h2).1,
    persistPath_eq_iff]
  exact ⟨fun h => h.2, fun h => ⟨rfl, h⟩⟩

/-- C2, amended, at concrete inputs: "abc" stored as "a.mp4" and as
"holiday.final.mp4" has one reference. -/
theorem same_content_same_extension :
    (persistDataAsFile memOS (ascii "abc") (ascii "a.mp4") []).1.1 =
      (persistDataAsFile memOS (ascii "abc") (ascii "holiday.final.mp4") []).1.1 :=
  (same_content_same_reference_iff memOS (ascii "abc") (ascii "a.mp4") (ascii "holiday.final.mp4")
    [] [] rfl rfl).2 (by decide)

/-- C3: when n1 and n2 have the same extension (the same suffix from the last
dot, as the specification derives it, or the same filepath.Ext, as the code
does) and persistDataAsFile(b, n1) has succeeded, a following call
persistDataAsFile(b, n2) returns the very same reference with a nil error
whenever its own directory creation and its own write to that (already
existing) file succeed; the function has no other way to fail. -/
theorem persist_again_same_reference {σ : Type} (os : OS σ) (b : Bytes) (n1 n2 : GoString)
    (fs : σ)
    (hext : lastDotSuffix n1 = lastDotSuffix n2 ∨ filepath.Ext n1 = filepath.Ext n2)
    (h1 : (persistDataAsFile os b n1 fs).1.2 = none)
    (hmk : (os.MkdirAll uploadsDir ModePerm (persistDataAsFile os b n1 fs).2).1 = none)
    (hwr : (os.WriteFile (persistDataAsFile os b n1 fs).1.1 b 0o666
      (os.MkdirAll uploadsDir ModePerm (persistDataAsFile os b n1 fs).2).2).1 = none) :
    (persistDataAsFile os b n2 (persistDataAsFile os b n1 fs).2).1 =
      ((persistDataAsFile os b n1 fs).1.1, none) := by
  have he : filepath.Ext n1 = filepath.Ext n2 := by
    rcases hext with h | h
    · rw [Ext_eq_of_lastDotSuffix, Ext_eq_of_lastDotSuffix, h]
    · exact h
  have hp : persistPath b n1 = persistPath b n2 := (persistPath_eq_iff b b n1 n2).2 ⟨rfl, he⟩
  rw [(persistDataAsFile_ok_path os b n1 fs h1).1, hp] at hwr ⊢
  rw [persistDataAsFile_succeeded os b n2 _ hmk hwr]

/-- C3, at concrete inputs: on the in-memory file system the second call
finds the file of the first one in place, replaces it and returns the same
reference. -/
theorem persist_again_abc :
    (persistDataAsFile memOS (ascii "abc") (ascii "other.mp4")
        (persistDataAsFile memOS (ascii "abc") (ascii "clip.mp4") []).2).1 =
      ((persistDataAsFile memOS (ascii "abc") (ascii "clip.mp4") []).1.1, none) ∧
    (persistDataAsFile memOS (ascii "abc") (ascii "clip.mp4") []).2 =
      [(persistPath (ascii "abc") (ascii "clip.mp4"), ascii "abc")] :=
  ⟨persist_again_same_reference memOS (ascii "abc") (ascii "clip.mp4") (ascii "other.mp4") []
    (Or.inl (by decide)) rfl rfl rfl, rfl⟩
/-- C4, as stated, fails: in the name "a.b/c" the last dot is followed by a
slash, so the suffix from the last dot is ".b/c", but the extension the code
derives is empty and the reference ends with the 64 digits. -/
theorem extension_stops_at_slash :
    lastDotSuffix (ascii "a.b/c") = ascii ".b/c" ∧
      filepath.Ext (ascii "a.b/c") = [] ∧
      (persistDataAsFile memOS [] (ascii "a.b/c") []).1 =
        (ascii "./uploads/e3b0c44298fc1c149afbf4c8996fb92427ae41e4649b934ca495991b7852b855",
          none) := by
  refine ⟨by decide, by decide, ?_⟩
  rw [persistDataAsFile_succeeded memOS _ _ [] rfl rfl, persistPath_empty]
  decide

/-- C4, amended: the extension appended to the reference is the suffix of
the file name that starts at its last dot (the dot included) when no slash
follows that dot, and is empty when the name has no dot or a slash follows
its last dot; put differently, it is the suffix from the last dot of the
final slash-separated element of the name. For a name without a slash it is
the suffix from the last dot of the name; for a name without a dot the
reference ends with the 64 hexadecimal digits; for every name that ends in
".mp4" the reference ends in ".mp4". -/
theorem extension_of_last_element (b : Bytes) (fileName : GoString) :
    persistPath b fileName =
        ascii "./uploads/" ++ fmt.fmtSbx (sha256.Sum256 b) ++
          (if 47 ∈ lastDotSuffix fileName then [] else lastDotSuffix fileName) ∧
      persistPath b fileName =
        ascii "./uploads/" ++ fmt.fmtSbx (sha256.Sum256 b) ++ lastDotSuffix (lastElement fileName) ∧
      (47 ∉ fileName → persistPath b fileName =
        ascii "./uploads/" ++ fmt.fmtSbx (sha256.Sum256 b) ++ lastDotSuffix fileName) ∧
      (46 ∉ fileName → persistPath b fileName =
        ascii "./uploads/" ++ fmt.fmtSbx (sha256.Sum256 b)) ∧
      (∀ stem : GoString, persistPath b (stem ++ ascii ".mp4") =
        ascii "./uploads/" ++ fmt.fmtSbx (sha256.Sum256 b) ++ ascii ".mp4") ∧
      (fmt.fmtSbx (sha256.Sum256 b)).length = 64 := by
  refine ⟨?_, ?_, ?_, ?_, ?_, hex_Sum256_length b⟩
  · rw [persistPath_eq, Ext_eq_of_lastDotSuffix, List.append_assoc]
  · rw [persistPath_eq, Ext_eq_lastDotSuffix, List.append_assoc]
  · intro h
    rw [persistPath_eq, Ext_eq_lastDotSuffix, lastElement_of_not_mem _ h, List.append_assoc]
  · intro h
    rw [persistPath_eq, Ext_of_no_dot _ h, List.append_nil]
  · intro stem
    have he : filepath.Ext (stem ++ ascii ".mp4") = ascii ".mp4" :=
      Ext_of_suffix stem (ascii "mp4") (by decide) (by decide)
    rw [persistPath_eq, he, List.append_assoc]

/-- C4, amended, at concrete inputs: "abc" stored as "x.mp4", as "x" and as
"a.b/c.d". -/
theorem extension_examples :
    persistPath (ascii "abc") (ascii "x.mp4") =
        ascii "./uploads/ba7816bf8f01cfea414140de5dae2223b00361a396177a9cb410ff61f20015ad.mp4" ∧
      persistPath (ascii "abc") (ascii "x") =
        ascii "./uploads/ba7816bf8f01cfea414140de5dae2223b00361a396177a9cb410ff61f20015ad" ∧
      persistPath (ascii "abc") (ascii "a.b/c.d") =
        ascii "./uploads/ba7816bf8f01cfea414140de5dae2223b00361a396177a9cb410ff61f20015ad.d" := by
  refine ⟨?_, ?_, ?_⟩
  · rw [(extension_of_last_element (ascii "abc") (ascii "x.mp4")).1, Sum256_abc]
    decide
  · rw [(extension_of_last_element (ascii "abc") (ascii "x")).1, Sum256_abc]
    decide
  · rw [(extension_of_last_element (ascii "abc") (ascii "a.b/c.d")).2.1, Sum256_abc]
    decide

/-- C6: for one file name and two contents, two successful calls of
persistDataAsFile return different references when the SHA-256 checksums of
the contents differ, and equal references only when the checksums are equal. -/
theorem different_digest_different_reference {σ : Type} (os : OS σ) (n : GoString)
    (b1 b2 : Bytes) (fs1 fs2 : σ)
    (h1 : (persistDataAsFile os b1 n fs1).1.2 = none)
    (h2 : (persistDataAsFile os b2 n fs2).1.2 = none) :
    (sha256.Sum256 b1 ≠ sha256.Sum256 b2 →
        (persistDataAsFile os b1 n fs1).1.1 ≠ (persistDataAsFile os b2 n fs2).1.1) ∧
      ((persistDataAsFile os b1 n fs1).1.1 = (persistDataAsFile os b2 n fs2).1.1 →
        sha256.Sum256 b1 = sha256.Sum256 b2) := by
  rw [(persistDataAsFile_ok_path os b1 n fs1 h1).1, (persistDataAsFile_ok_path os b2 n fs2 h2).1]
  have key : persistPath b1 n = persistPath b2 n → sha256.Sum256 b1 = sha256.Sum256 b2 :=
    fun h => ((persistPath_eq_iff b1 b2 n n).1 h).1
  exact ⟨fun hne h => hne (key h), key⟩

/-- C6, at concrete inputs: "abc" and the empty content, both stored as
"clip.mp4", have different references. -/
theorem abc_and_empty_differ :
    (persistDataAsFile memOS (ascii "abc") (ascii "clip.mp4") []).1.1 ≠
      (persistDataAsFile memOS [] (ascii "clip.mp4") []).1.1 :=
  (different_digest_different_reference memOS (ascii "clip.mp4") (ascii "abc") [] [] [] rfl rfl).1
    (by rw [Sum256_abc, Sum256_empty]; decide)

/-- C10: for every content and every file name the path computed by
persistDataAsFile is "./uploads/" followed by one path element, in which no
slash occurs; the file system is touched only by creating the directory
"./uploads" and by writing that path, and the string returned is that path
or empty. -/
theorem persistPath_confined (data : Bytes) (fileName : GoString) :
    ∃ element : GoString,
      persistPath data fileName = ascii "./uploads/" ++ element ∧
      47 ∉ element ∧ 64 ≤ element.length ∧
      ∀ (σ : Type) (os : OS σ) (fs : σ),
        ((persistDataAsFile os data fileName fs).2 = (os.MkdirAll (ascii "./uploads") ModePerm fs).2 ∨
          (persistDataAsFile os data fileName fs).2 =
            (os.WriteFile (ascii "./uploads/" ++ element) data 0o666
              (os.MkdirAll (ascii "./uploads") ModePerm fs).2).2) ∧
        ((persistDataAsFile os data fileName fs).1.1 = [] ∨
          (persistDataAsFile os data fileName fs).1.1 = ascii "./uploads/" ++ element) := by
  refine ⟨fmt.fmtSbx (sha256.Sum256 data) ++ filepath.Ext fileName, persistPath_eq _ _, ?_, ?_, ?_⟩
  · intro hm
    rcases List.mem_append.1 hm with h | h
    · rcases fmtSbx_digit _ _ h with ⟨h1, h2⟩ | ⟨h1, h2⟩ <;> omega
    · exact Ext_no_slash fileName h
  · rw [List.length_append, hex_Sum256_length]
    omega
  · intro σ os fs
    rw [← persistPath_eq]
    rcases persistDataAsFile_cases os data fileName fs with
      ⟨err, _, he⟩ | ⟨err, _, _, he⟩ | ⟨_, _, he⟩
    · rw [he]; exact ⟨Or.inl rfl, Or.inl rfl⟩
    · rw [he]; exact ⟨Or.inr rfl, Or.inl rfl⟩
    · rw [he]; exact ⟨Or.inr rfl, Or.inr rfl⟩

/-- C10, at concrete inputs: the names "../../etc/passwd" and "a.b/../c"
lead to a file directly under "./uploads". -/
theorem traversal_names_confined :
    (∃ element : GoString, 47 ∉ element ∧
        persistPath [] (ascii "../../etc/passwd") = ascii "./uploads/" ++ element) ∧
      persistPath [] (ascii "../../etc/passwd") =
        ascii "./uploads/e3b0c44298fc1c149afbf4c8996fb92427ae41e4649b934ca495991b7852b855" ∧
      persistPath [] (ascii "a.b/../c") =
        ascii "./uploads/e3b0c44298fc1c149afbf4c8996fb92427ae41e4649b934ca495991b7852b855" := by
  obtain ⟨element, hpath, hslash, _⟩ := persistPath_confined [] (ascii "../../etc/passwd")
  refine ⟨⟨element, hslash, hpath⟩, ?_, ?_⟩
  · rw [persistPath_empty]; decide
  · rw [persistPath_empty]; decide

/-! ## The claims on the handlers -/

/-- C5, evaluated on the code: on a request whose session lacks "videoPath"
or lacks "videoName" (so also when it holds neither, the session that was
never bound), VideoPartial panics at a type assertion of lines 122-123;
nothing is rendered and no response is written. -/
theorem VideoPartial_unbound_panics {σ κ : Type} (env : Env σ κ) (w : ResponseWriter κ)
    (r : Request κ) (fs : σ) (session : Values)
    (h : env.store.Get r "app" = .ok session)
    (hmissing : session.get "videoPath" = none ∨ session.get "videoName" = none) :
    Handler.VideoPartial env w r fs = .panicked w fs := by
  rcases hmissing with hp | hn
  · simp only [Handler.VideoPartial, h, hp, assertString]
  · cases hpath : assertString (session.get "videoPath") with
    | none => simp only [Handler.VideoPartial, h, hpath]
    | some path =>
      simp only [Handler.VideoPartial, h, hpath, hn]
      rfl

/-- C5, at a concrete input: a first GET /video, sent without a cookie. -/
theorem VideoPartial_first_visit_panics :
    Handler.VideoPartial sampleEnv ResponseWriter.fresh (getRequest none) [] =
      .panicked ResponseWriter.fresh [] :=
  VideoPartial_unbound_panics sampleEnv ResponseWriter.fresh (getRequest none) [] [] rfl
    (Or.inl rfl)

/-- C9, evaluated on the code: when r.FormFile("video") returns an error,
App panics (the nil file is read); no response is written, the file system is
not touched and no cookie is set. -/
theorem App_missing_file_panics {σ κ : Type} (env : Env σ κ) (w : ResponseWriter κ)
    (r : Request κ) (fs : σ) (err : GoError) (h : r.FormFile "video" = .error err) :
    Handler.App env w r fs = .panicked w fs := by
  simp only [Handler.App, h]

/-- C9, at a concrete input: a form upload without the "video" field. -/
theorem App_empty_form_panics :
    Handler.App sampleEnv ResponseWriter.fresh (emptyFormRequest none) [] =
      .panicked ResponseWriter.fresh [] :=
  App_missing_file_panics sampleEnv ResponseWriter.fresh (emptyFormRequest none) []
    ⟨ascii "http: no such file"⟩ rfl

/-- C7: over a cookie store that decodes what it encoded, (1) VideoPartial on
a session on which the bind step set r2 and n2 renders the template "video"
with exactly VideoPath = r2 and VideoName = n2, whatever the session held
before; (2) the values of the session after the bind step do not depend on
an earlier binding: two prior sessions that differ only under "videoPath" and
"videoName" are equal under every key after it; (3) when the bind step of an
upload handler (get, bind, save) succeeds on a response not yet written, it
sets one cookie "app", and VideoPartial on any request carrying that cookie
renders "video" with exactly the reference and the name that were bound. -/
theorem bind_then_resolve {σ κ : Type} (env : Env σ κ)
    (hrt : ∀ v c, env.store.encode "app" v = .ok c → env.store.decode "app" c = .ok v) :
    (∀ (prior : Values) (r2 n2 : GoString) (w : ResponseWriter κ) (r : Request κ) (fs : σ),
        env.store.Get r "app" = .ok (bindVideo prior r2 n2) →
        Handler.VideoPartial env w r fs =
          .returned (renderTemplate env.templates w "video"
            { VideoPath := r2, VideoName := n2 }) fs) ∧
      (∀ (prior prior2 : Values) (r2 n2 : GoString),
        (∀ k, k ≠ "videoPath" → k ≠ "videoName" → prior.get k = prior2.get k) →
        ∀ k, (bindVideo prior r2 n2).get k = (bindVideo prior2 r2 n2).get k) ∧
      (∀ (w w1 : ResponseWriter κ) (r : Request κ) (r2 n2 : GoString),
        w.status = none → bindSession env.store w r r2 n2 = .ok w1 →
        ∃ c, w1.cookies = w.cookies ++ [("app", c)] ∧
          ∀ (w2 : ResponseWriter κ) (q : Request κ) (fs : σ), q.Cookie "app" = some c →
            Handler.VideoPartial env w2 q fs =
              .returned (renderTemplate env.templates w2 "video"
            { VideoPath := r2, VideoName := n2 }) fs) := by
  have resolve : ∀ (prior : Values) (r2 n2 : GoString) (w : ResponseWriter κ) (r : Request κ)
      (fs : σ), env.store.Get r "app" = .ok (bindVideo prior r2 n2) →
      Handler.VideoPartial env w r fs =
        .returned (renderTemplate env.templates w "video"
            { VideoPath := r2, VideoName := n2 }) fs := by
    intro prior r2 n2 w r fs h
    apply VideoPartial_bound env w r fs _ r2 n2 h
    · rw [bindVideo_get]; simp
    · rw [bindVideo_get]; simp
  refine ⟨resolve, ?_, ?_⟩
  · intro prior prior2 r2 n2 hagree k
    rw [bindVideo_get, bindVideo_get]
    by_cases h1 : k = "videoName"
    · simp [h1]
    · by_cases h2 : k = "videoPath"
      · simp [h2]
      · simp [h1, h2, hagree k h2 h1]
  · intro w w1 r r2 n2 hw hbind
    rcases bindSession_cases env.store w r r2 n2 with
      ⟨err, _, he⟩ | ⟨session, err, _, _, he⟩ | ⟨session, c, _, henc, he⟩
    · rw [he] at hbind; cases hbind
    · rw [he] at hbind; cases hbind
    · rw [he] at hbind
      have hw1 : w1 = http.SetCookie w "app" c := (Except.ok.inj hbind).symm
      refine ⟨c, ?_, ?_⟩
      · rw [hw1]
        simp only [http.SetCookie, hw]
      · intro w2 q fs hq
        apply resolve session r2 n2 w2 q fs
        simp only [CookieStore.Get, hq]
        exact hrt _ _ henc

/-- C7, at concrete inputs: in a session bound to an earlier video, a PUT of
"abc" as "clip.mp4" answers with the new reference and sets a cookie, and
VideoPartial on a request with that cookie renders the new reference under
the name "clip.mp4"; the earlier binding occurs nowhere in the cookie. -/
theorem upload_abc_then_resolve :
    ∃ c : Values,
      Handler.PutVideo sampleEnv ResponseWriter.fresh
          (putRequest (ascii "clip.mp4") (ascii "abc")
            (some (bindVideo [] (ascii "./uploads/00.webm") (ascii "old.webm")))) [] =
        .returned
          ⟨some 200,
            ascii "./uploads/ba7816bf8f01cfea414140de5dae2223b00361a396177a9cb410ff61f20015ad.mp4",
            [("app", c)]⟩
          [(ascii "./uploads/ba7816bf8f01cfea414140de5dae2223b00361a396177a9cb410ff61f20015ad.mp4",
            ascii "abc")] ∧
      c = [("videoPath", .string
              (ascii "./uploads/ba7816bf8f01cfea414140de5dae2223b00361a396177a9cb410ff61f20015ad.mp4")),
            ("videoName", .string (ascii "clip.mp4"))] ∧
      Handler.VideoPartial sampleEnv ResponseWriter.fresh (getRequest (some c)) [] =
        .returned
          ⟨some 200,
            ascii "./uploads/ba7816bf8f01cfea414140de5dae2223b00361a396177a9cb410ff61f20015ad.mp4" ++
              [10] ++ ascii "clip.mp4" ++ [10],
            []⟩
          [] := by
  have hpath : persistPath (ascii "abc") (ascii "clip.mp4") =
      ascii "./uploads/ba7816bf8f01cfea414140de5dae2223b00361a396177a9cb410ff61f20015ad.mp4" := by
    rw [persistPath_abc]; decide
  have hpersist : persistDataAsFile memOS (ascii "abc") (ascii "clip.mp4") [] =
      ((ascii "./uploads/ba7816bf8f01cfea414140de5dae2223b00361a396177a9cb410ff61f20015ad.mp4", none),
        [(ascii "./uploads/ba7816bf8f01cfea414140de5dae2223b00361a396177a9cb410ff61f20015ad.mp4",
          ascii "abc")]) := by
    rw [persistDataAsFile_succeeded memOS _ _ [] rfl rfl, hpath]
    rfl
  refine ⟨_, ?_, rfl, ?_⟩
  · rw [PutVideo_of_body sampleEnv _ _ [] (ascii "abc") rfl]
    show (match persistDataAsFile memOS (ascii "abc") (ascii "clip.mp4") [] with
      | ((_, some err), fs1) => Outcome.returned (http.Error ResponseWriter.fresh err.Error 500) fs1
      | ((path, none), fs1) =>
        match bindSession plainStore ResponseWriter.fresh
            (putRequest (ascii "clip.mp4") (ascii "abc")
              (some (bindVideo [] (ascii "./uploads/00.webm") (ascii "old.webm"))))
            path (ascii "clip.mp4") with
        | .error w1 => Outcome.returned w1 fs1
        | .ok w1 => Outcome.returned (w1.Write path) fs1) = _
    rw [hpersist]
    rfl
  · rw [(bind_then_resolve sampleEnv (fun v c h => by cases h; rfl)).1
      [("videoPath", .string (ascii "./uploads/00.webm")), ("videoName", .string (ascii "old.webm"))]
      (ascii "./uploads/ba7816bf8f01cfea414140de5dae2223b00361a396177a9cb410ff61f20015ad.mp4")
      (ascii "clip.mp4") ResponseWriter.fresh
      (getRequest (some [("videoPath", .string
          (ascii "./uploads/ba7816bf8f01cfea414140de5dae2223b00361a396177a9cb410ff61f20015ad.mp4")),
        ("videoName", .string (ascii "clip.mp4"))])) [] (by rfl)]
    rfl

/-- C8, amended: in PutVideo, (1) a failing persistDataAsFile returns the
empty string with its error, and the handler answers with http.Error, status
500 and the message of the error, and sets no cookie; (2), (3) a failure to
get or to save the session is answered the same way; (4) on a response not
yet written that answer has status 500, exactly the message and a newline as
body, and the cookies unchanged; (5) the response has status 200 only when
the body was read and persist, session get and session save all succeeded,
and then the body is the reference and the cookie is set; (6) when they all
succeed the handler sets the cookie and writes the reference; (7) the handler
adds nothing of its own to the error response: a string without a newline
(such as the reference of a name without one) occurs in the body of the
error response only if it occurs in the message of the error. -/
theorem PutVideo_aborts_on_failure {σ κ : Type} (env : Env σ κ) (w : ResponseWriter κ)
    (r : Request κ) (fs : σ) :
    (∀ b err, r.Body = (b, none) →
        (persistDataAsFile env.os b (r.Header "File-Name") fs).1.2 = some err →
        (persistDataAsFile env.os b (r.Header "File-Name") fs).1.1 = [] ∧
        Handler.PutVideo env w r fs = .returned (http.Error w err.Error 500)
          (persistDataAsFile env.os b (r.Header "File-Name") fs).2 ∧
        (http.Error w err.Error 500).cookies = w.cookies) ∧
      (∀ b err, r.Body = (b, none) →
        (persistDataAsFile env.os b (r.Header "File-Name") fs).1.2 = none →
        env.store.Get r "app" = .error err →
        Handler.PutVideo env w r fs = .returned (http.Error w err.Error 500)
          (persistDataAsFile env.os b (r.Header "File-Name") fs).2) ∧
      (∀ b session err, r.Body = (b, none) →
        (persistDataAsFile env.os b (r.Header "File-Name") fs).1.2 = none →
        env.store.Get r "app" = .ok session →
        env.store.encode "app" (bindVideo session
          (persistDataAsFile env.os b (r.Header "File-Name") fs).1.1 (r.Header "File-Name")) =
            .error err →
        Handler.PutVideo env w r fs = .returned (http.Error w err.Error 500)
          (persistDataAsFile env.os b (r.Header "File-Name") fs).2) ∧
      (∀ msg, w.status = none →
        http.Error w msg 500 = ⟨some 500, w.body ++ (msg ++ [10]), w.cookies⟩) ∧
      (w.status = none → ∀ w1 fs1, Handler.PutVideo env w r fs = .returned w1 fs1 →
        w1.status = some 200 →
        ∃ b session c, r.Body = (b, none) ∧
          (persistDataAsFile env.os b (r.Header "File-Name") fs).1 =
            (persistPath b (r.Header "File-Name"), none) ∧
          env.store.Get r "app" = .ok session ∧
          env.store.encode "app" (bindVideo session (persistPath b (r.Header "File-Name"))
            (r.Header "File-Name")) = .ok c ∧
          w1 = ⟨some 200, w.body ++ persistPath b (r.Header "File-Name"),
            w.cookies ++ [("app", c)]⟩) ∧
      (∀ b session c, r.Body = (b, none) →
        (persistDataAsFile env.os b (r.Header "File-Name") fs).1.2 = none →
        env.store.Get r "app" = .ok session →
        env.store.encode "app" (bindVideo session
          (persistDataAsFile env.os b (r.Header "File-Name") fs).1.1 (r.Header "File-Name")) =
            .ok c →
        Handler.PutVideo env w r fs =
          .returned ((http.SetCookie w "app" c).Write
            (persistDataAsFile env.os b (r.Header "File-Name") fs).1.1)
            (persistDataAsFile env.os b (r.Header "File-Name") fs).2) ∧
      (∀ msg ref : GoString, ref ≠ [] → 10 ∉ ref →
        ref <:+: (http.Error (ResponseWriter.fresh : ResponseWriter κ) msg 500).body →
        ref <:+: msg) := by
  refine ⟨?_, ?_, ?_, ?_, ?_, ?_, ?_⟩
  · intro b err hb h
    exact ⟨persistDataAsFile_err_empty _ _ _ _ err h, PutVideo_persist_failed env w r fs b err hb h,
      http_Error_cookies _ _ _⟩
  · intro b err hb h hget
    rw [PutVideo_persisted env w r fs b hb h, bindSession_get_failed _ _ _ _ _ err hget]
  · intro b session err hb h hget henc
    rw [PutVideo_persisted env w r fs b hb h,
      bindSession_save_failed _ _ _ _ _ session err hget henc]
  · intro msg hw
    exact http_Error_unwritten w msg 500 hw
  · intro hw w1 fs1 hret hst
    have abort : ∀ (msg : GoString) (s : σ),
        Handler.PutVideo env w r fs = .returned (http.Error w msg 500) s → False := by
      intro msg s he
      rw [he] at hret
      injection hret with e1 _
      rw [← e1, http_Error_unwritten w msg 500 hw] at hst
      cases hst
    rcases hbody : r.Body with ⟨b, e⟩
    cases e with
    | some err =>
      exact (abort err.Error fs (by
        simp only [Handler.PutVideo, hbody, http.StatusInternalServerError])).elim
    | none =>
      cases hp : (persistDataAsFile env.os b (r.Header "File-Name") fs).1.2 with
      | some err => exact (abort _ _ (PutVideo_persist_failed env w r fs b err hbody hp)).elim
      | none =>
        obtain ⟨hpath, _, _⟩ := persistDataAsFile_ok_path env.os b (r.Header "File-Name") fs hp
        have hput := PutVideo_persisted env w r fs b hbody hp
        rcases bindSession_cases env.store w r
            (persistDataAsFile env.os b (r.Header "File-Name") fs).1.1 (r.Header "File-Name") with
          ⟨err, _, he⟩ | ⟨session, err, _, _, he⟩ | ⟨session, c, hget, henc, he⟩
        · rw [he] at hput
          exact (abort _ _ hput).elim
        · rw [he] at hput
          exact (abort _ _ hput).elim
        · rw [he] at hput
          rw [hput] at hret
          injection hret with e1 _
          rw [hpath] at henc e1
          refine ⟨b, session, c, rfl, ?_, hget, henc, ?_⟩
          · exact Prod.ext hpath hp
          · rw [← e1, SetCookie_Write_unwritten w c _ hw]
  · intro b session c hb h hget henc
    rw [PutVideo_persisted env w r fs b hb h, bindSession_saved _ _ _ _ _ session c hget henc]
  · intro msg ref hne h10 hin
    rw [http_Error_unwritten _ msg 500 rfl] at hin
    exact infix_of_infix_newline ref msg hne h10 (by simpa [ResponseWriter.fresh] using hin)

/-- C8, amended, at concrete inputs: on a file system on which nothing can
be created a PUT of "abc" as "clip.mp4" is answered with status 500 and the
message of the error, a newline after it, without a cookie; with a store that
cannot encode, the answer is again status 500 with the message of the error
and no cookie, while the file stays stored. -/
theorem PutVideo_denied :
    Handler.PutVideo (⟨deniedOS, plainStore, sampleTemplates⟩ : Env Unit Values)
        ResponseWriter.fresh (putRequest (ascii "clip.mp4") (ascii "abc") none) () =
      .returned ⟨some 500, ascii "mkdir ./uploads: permission denied" ++ [10], []⟩ () ∧
    Handler.PutVideo (⟨memOS, brokenStore, sampleTemplates⟩ : Env (List (GoString × Bytes)) Values)
        ResponseWriter.fresh (putRequest (ascii "clip.mp4") (ascii "abc") none) [] =
      .returned ⟨some 500, ascii "securecookie: the value is too long" ++ [10], []⟩
        [(persistPath (ascii "abc") (ascii "clip.mp4"), ascii "abc")] := by
  refine ⟨?_, ?_⟩
  · have h := (PutVideo_aborts_on_failure
      (⟨deniedOS, plainStore, sampleTemplates⟩ : Env Unit Values)
      ResponseWriter.fresh (putRequest (ascii "clip.mp4") (ascii "abc") none) ()).1
      (ascii "abc") ⟨ascii "mkdir ./uploads: permission denied"⟩ rfl (by decide)
    rw [h.2.1]
    rfl
  · have h := (PutVideo_aborts_on_failure
      (⟨memOS, brokenStore, sampleTemplates⟩ : Env (List (GoString × Bytes)) Values)
      ResponseWriter.fresh (putRequest (ascii "clip.mp4") (ascii "abc") none) []).2.2.1
      (ascii "abc") [] ⟨ascii "securecookie: the value is too long"⟩ rfl rfl rfl rfl
    rw [h]
    rfl

set_option maxRecDepth 100000 in
/-- C8, as stated, fails: a failed write is reported by a path error whose
message names the path, and the handler sends the message on. On a file
system without room for the file, a PUT of "abc" as "clip.mp4" is answered
with status 500 and a body that contains the reference; so is a PUT under a
name whose extension makes the file name longer than 255 bytes, which a
client can choose. -/
theorem PutVideo_error_names_reference :
    persistPath (ascii "abc") (ascii "clip.mp4") =
        ascii "./uploads/ba7816bf8f01cfea414140de5dae2223b00361a396177a9cb410ff61f20015ad.mp4" ∧
      Handler.PutVideo (⟨fullOS, plainStore, sampleTemplates⟩ : Env Unit Values)
          ResponseWriter.fresh (putRequest (ascii "clip.mp4") (ascii "abc") none) () =
        .returned
          ⟨some 500,
            ascii "write ./uploads/ba7816bf8f01cfea414140de5dae2223b00361a396177a9cb410ff61f20015ad.mp4: no space left on device" ++
              [10],
            []⟩ () ∧
      ascii "./uploads/ba7816bf8f01cfea414140de5dae2223b00361a396177a9cb410ff61f20015ad.mp4" <:+:
        ascii "write ./uploads/ba7816bf8f01cfea414140de5dae2223b00361a396177a9cb410ff61f20015ad.mp4: no space left on device" ++
          [10] ∧
      Handler.PutVideo (⟨nameMaxOS, plainStore, sampleTemplates⟩ :
            Env (List (GoString × Bytes)) Values)
          ResponseWriter.fresh
          (putRequest (ascii "v." ++ List.replicate 200 97) (ascii "abc") none) [] =
        .returned
          ⟨some 500,
            ascii "open " ++ persistPath (ascii "abc") (ascii "v." ++ List.replicate 200 97) ++
              ascii ": file name too long" ++ [10],
            []⟩ [] := by
  have hpath : persistPath (ascii "abc") (ascii "clip.mp4") =
      ascii "./uploads/ba7816bf8f01cfea414140de5dae2223b00361a396177a9cb410ff61f20015ad.mp4" := by
    rw [persistPath_abc]; decide
  refine ⟨hpath, ?_, ?_, ?_⟩
  · have hfail : (persistDataAsFile fullOS (ascii "abc") (ascii "clip.mp4") ()).1.2 =
        some ⟨ascii "write " ++ persistPath (ascii "abc") (ascii "clip.mp4") ++
          ascii ": no space left on device"⟩ := by
      rw [persistDataAsFile_write_failed fullOS _ _ () _ rfl rfl]
    rw [PutVideo_persist_failed (⟨fullOS, plainStore, sampleTemplates⟩ : Env Unit Values)
      ResponseWriter.fresh (putRequest (ascii "clip.mp4") (ascii "abc") none) () (ascii "abc") _
      rfl hfail, http_Error_unwritten _ _ 500 rfl, hpath]
    rfl
  · exact ⟨ascii "write ", ascii ": no space left on device" ++ [10], by decide⟩
  · have hext : filepath.Ext (ascii "v." ++ List.replicate 200 97) = 46 :: List.replicate 200 97 := by
      have h := Ext_of_suffix (ascii "v") (List.replicate 200 97) (by decide) (by decide)
      exact h
    have hlen : (persistPath (ascii "abc") (ascii "v." ++ List.replicate 200 97)).length = 275 := by
      rw [persistPath_abc, hext, List.length_append, List.length_cons, List.length_replicate]
      decide
    have hw : (nameMaxOS.WriteFile (persistPath (ascii "abc") (ascii "v." ++ List.replicate 200 97))
        (ascii "abc") 0o666 (nameMaxOS.MkdirAll uploadsDir ModePerm []).2).1 =
        some ⟨ascii "open " ++ persistPath (ascii "abc") (ascii "v." ++ List.replicate 200 97) ++
          ascii ": file name too long"⟩ := by
      simp only [nameMaxOS, hlen]
      rfl
    have hfail : (persistDataAsFile nameMaxOS (ascii "abc") (ascii "v." ++ List.replicate 200 97)
        []).1.2 =
        some ⟨ascii "open " ++ persistPath (ascii "abc") (ascii "v." ++ List.replicate 200 97) ++
          ascii ": file name too long"⟩ := by
      rw [persistDataAsFile_write_failed nameMaxOS _ _ [] _ rfl hw]
    have hstate : (persistDataAsFile nameMaxOS (ascii "abc") (ascii "v." ++ List.replicate 200 97)
        []).2 = [] := by
      rw [persistDataAsFile_write_failed nameMaxOS _ _ [] _ rfl hw]
      simp only [nameMaxOS, hlen]
      rfl
    rw [PutVideo_persist_failed (⟨nameMaxOS, plainStore, sampleTemplates⟩ :
        Env (List (GoString × Bytes)) Values)
      ResponseWriter.fresh (putRequest (ascii "v." ++ List.replicate 200 97) (ascii "abc") none) []
      (ascii "abc") _ rfl hfail, http_Error_unwritten _ _ 500 rfl]
    show Outcome.returned _ (persistDataAsFile nameMaxOS (ascii "abc")
      (ascii "v." ++ List.replicate 200 97) []).2 = _
    rw [hstate]
    rfl
